import Mathlib

/-!
Verification of the local persistence / versioning core and the streaming
response decoder of the skilllead-ai-navigator repository.

The definitions below are shallow embeddings of the TypeScript source:

* Analysis versioning: the record-analysis path of
  `startAnalysis` in `src/pages/AnalysisPage.tsx` (lines 76-95).
* Stream decoder: `handleStreamResponse` in `src/lib/openai.ts`
  (lines 156-195), together with a model of the platform pieces it uses
  (`String.prototype.split`/`trim`/`startsWith`/`slice` and `JSON.parse`).
* Backup codec: `exportAllData` / `importData` in `src/lib/db.ts`
  (lines 250-302), with Dexie's read-write transaction modelled as an
  all-or-nothing commit.
* Credential holder: `getApiKey` / `setApiKey` / `clearApiKey` in
  `src/lib/openai.ts` (lines 53-91) over session storage, local storage
  and the settings store.
-/

namespace SkillLead

/-! ## Analysis versioning (src/pages/AnalysisPage.tsx, startAnalysis) -/

/-- The fields of an analysis result consumed by the record-analysis path.
`interestsConfirmed` and `clarifications` may be absent (`undefined`) in the
JSON produced by the provider, hence `Option`.  The remaining payload fields
(plans, deep dive, summary, roadmap) are copied through unchanged and never
read by any property below, so they are elided. -/
structure AnalysisResult where
  interestsConfirmed : Option Bool
  clarifications : Option (List String)
deriving DecidableEq, Repr

/-- One row of the `analyses` table.  Payload fields not read by any
property below (status, plans, deep dive, summary, roadmap, timestamps) are
elided; `id`/`createdAt`/`updatedAt` do not influence the modelled paths. -/
structure CareerAnalysis where
  userId : Nat
  clarifications : List String
  interestsConfirmed : Bool
  latest : Bool
  version : Nat
deriving DecidableEq, Repr

/-- JavaScript `x || default` for an optional boolean `x`
(`undefined` and `false` are falsy, `true` is truthy). -/
def jsOrBool (x : Option Bool) (default : Bool) : Bool :=
  match x with
  | some true => true
  | some false => default
  | none => default

/-- The `analysisRecord` object literal built by `startAnalysis`
(AnalysisPage.tsx lines 76-89): `interestsConfirmed` is
`analysisResult.interestsConfirmed || true`, `clarifications` is
`analysisResult.clarifications || []` (an array is always truthy),
`latest` is `true` and `version` is the literal `1`. -/
def mkAnalysisRecord (userId : Nat) (r : AnalysisResult) : CareerAnalysis :=
  { userId := userId
    clarifications := r.clarifications.getD []
    interestsConfirmed := jsOrBool r.interestsConfirmed true
    latest := true
    version := 1 }

/-- The `modify(\x7b latest: false \x7d)` update applied to one row. -/
def setNotLatest (a : CareerAnalysis) : CareerAnalysis :=
  { a with latest := false }

/-- `db.analyses.where(\x7b userId, latest: true \x7d).modify(\x7b latest: false \x7d)`:
every row of the table matching both criteria is updated in place. -/
def flipLatest (userId : Nat) (t : List CareerAnalysis) : List CareerAnalysis :=
  t.map fun a => if a.userId == userId && a.latest then setNotLatest a else a

/-- The record-analysis path (AnalysisPage.tsx lines 91-95): flip the
`latest` flag off for the user's current rows, then `add` the new record,
which appends it to the table. -/
def recordAnalysis (userId : Nat) (r : AnalysisResult) (t : List CareerAnalysis) :
    List CareerAnalysis :=
  flipLatest userId t ++ [mkAnalysisRecord userId r]

/-- The record-analysis path with failure injection.  The two `await`ed
Dexie calls are separate operations with no enclosing transaction; each is
atomic on its own.  If the flip fails nothing has happened yet; if the add
fails the already committed flip persists. -/
def recordAnalysisFallible (flipFails addFails : Bool) (userId : Nat)
    (r : AnalysisResult) (t : List CareerAnalysis) : List CareerAnalysis :=
  if flipFails then t
  else if addFails then flipLatest userId t
  else recordAnalysis userId r t

/-- Run a sequence of record-analysis operations from a given table. -/
def runOpsFrom (t : List CareerAnalysis) (ops : List (Nat × AnalysisResult)) :
    List CareerAnalysis :=
  ops.foldl (fun acc p => recordAnalysis p.1 p.2 acc) t

/-- Run a sequence of record-analysis operations from the empty table. -/
def runOps (ops : List (Nat × AnalysisResult)) : List CareerAnalysis :=
  runOpsFrom [] ops

/-- The rows of the table for `userId` with `latest = true`
(the shape of the `getLatestAnalysis` query in db.ts line 231). -/
def latestRowsFor (userId : Nat) (t : List CareerAnalysis) : List CareerAnalysis :=
  t.filter fun a => a.userId == userId && a.latest

/-- All rows of the table belonging to `userId`. -/
def rowsFor (userId : Nat) (t : List CareerAnalysis) : List CareerAnalysis :=
  t.filter fun a => a.userId == userId

/-! ## Credential holder (src/lib/openai.ts lines 53-91) -/

/-- The `openaiKeyStored` field of the settings record. -/
inductive KeyStoredMode where
  | session
  | encrypted_local
  | noneMode
deriving DecidableEq, Repr

/-- The slice of `AppSettings` read by the credential holder. -/
structure SettingsRecord where
  openaiKeyStored : KeyStoredMode
deriving DecidableEq, Repr

/-- Process-wide credential state: the two web-storage slots and the
settings store (`useSettingsStore`).  A storage slot holds `none` when the
item is absent (`getItem` returns `null`). -/
structure KeyState where
  sessionStorageKey : Option String
  localStorageEncryptedKey : Option String
  settings : Option SettingsRecord
  openaiKey : String
  isKeyValid : Bool
deriving DecidableEq, Repr

/-- The fallback branch of `getApiKey` (openai.ts lines 58-68): when the
settings say the key is in encrypted local storage, the encrypted item is
looked up but decryption is unimplemented, so the branch returns `null`
in every case. -/
def getApiKeyLocalBranch (st : KeyState) : Option String :=
  match st.settings with
  | some s =>
    if s.openaiKeyStored = KeyStoredMode.encrypted_local then
      match st.localStorageEncryptedKey with
      | some encryptedKey =>
        if encryptedKey ≠ "" then
          none
        else none
      | none => none
    else none
  | none => none

/-- `getApiKey` (openai.ts lines 53-69): return the session-storage key if
present and non-empty (JS truthiness), otherwise fall back to the
encrypted-local branch, which always yields `null`. -/
def getApiKey (st : KeyState) : Option String :=
  match st.sessionStorageKey with
  | some sessionKey =>
    if sessionKey ≠ "" then some sessionKey else getApiKeyLocalBranch st
  | none => getApiKeyLocalBranch st

/-- `useSettingsStore.getState().updateSetting('openaiKeyStored', m)`
(stores.ts lines 137-144): the settings record is updated only when one
already exists. -/
def updateKeyStored (st : KeyState) (m : KeyStoredMode) : KeyState :=
  { st with settings := st.settings.map fun _ => { openaiKeyStored := m } }

/-- `setApiKey` (openai.ts lines 71-83). -/
def setApiKey (st : KeyState) (key : String) (persistent : Bool) : KeyState :=
  let st1 :=
    if persistent then
      updateKeyStored { st with localStorageEncryptedKey := some key }
        KeyStoredMode.encrypted_local
    else
      updateKeyStored { st with sessionStorageKey := some key }
        KeyStoredMode.session
  { st1 with openaiKey := key }

/-- `clearApiKey` (openai.ts lines 85-91). -/
def clearApiKey (st : KeyState) : KeyState :=
  let st1 := { st with sessionStorageKey := none, localStorageEncryptedKey := none,
                       openaiKey := "", isKeyValid := false }
  updateKeyStored st1 KeyStoredMode.noneMode

/-! ## JavaScript string primitives used by the stream decoder

Modelled over `List Char` so that every operation is executable and
kernel-reducible.  They follow the ECMAScript behaviour of
`split('\n')`, `trim()`, `startsWith(p)` and `slice(n)` on the
(ASCII-range) inputs the decoder sees. -/

/-- Split a character list at every newline; `split('\n')` never drops
empty pieces. -/
def splitNewlineChars : List Char → List (List Char)
  | [] => [[]]
  | c :: cs =>
    match splitNewlineChars cs with
    | [] => [[]]
    | h :: t => if c = '\n' then [] :: h :: t else (c :: h) :: t

/-- JavaScript `chunk.split('\n')`. -/
def jsSplitNewline (s : String) : List String :=
  (splitNewlineChars s.data).map fun cs => String.mk cs

/-- Whitespace for the purposes of `String.prototype.trim`. -/
def isJsWs (c : Char) : Bool :=
  c = ' ' || c = '\t' || c = '\n' || c = '\r' || c = '\x0b' || c = '\x0c'

/-- JavaScript `line.trim()`. -/
def jsTrim (s : String) : String :=
  String.mk (((s.data.dropWhile isJsWs).reverse.dropWhile isJsWs).reverse)

/-- JavaScript `line.startsWith(p)`. -/
def jsStartsWith (s p : String) : Bool :=
  p.data.isPrefixOf s.data

/-- JavaScript `line.slice(n)` for a non-negative `n`. -/
def jsSlice (s : String) (n : Nat) : String :=
  String.mk (s.data.drop n)

/-! ## JSON values and `JSON.parse`

The decoder calls the platform's `JSON.parse`; the parser below models it
for the textual JSON grammar (objects, arrays, strings with escapes,
numbers, `true`/`false`/`null`), failing exactly where `JSON.parse`
throws.  Numeric lexemes are kept verbatim: no modelled path ever reads a
numeric value. -/

inductive Json where
  | null
  | bool (b : Bool)
  | num (lexeme : String)
  | str (s : String)
  | arr (elems : List Json)
  | obj (members : List (String × Json))
deriving Repr

/-- Skip JSON insignificant whitespace. -/
def skipWs : List Char → List Char
  | [] => []
  | c :: cs =>
    if c = ' ' || c = '\t' || c = '\n' || c = '\r' then skipWs cs else c :: cs

/-- Value of one hexadecimal digit. -/
def hexVal (c : Char) : Option Nat :=
  if '0' ≤ c ∧ c ≤ '9' then some (c.toNat - '0'.toNat)
  else if 'a' ≤ c ∧ c ≤ 'f' then some (c.toNat - 'a'.toNat + 10)
  else if 'A' ≤ c ∧ c ≤ 'F' then some (c.toNat - 'A'.toNat + 10)
  else none

/-- Parse the body of a JSON string literal (the opening quote already
consumed), handling the escape sequences of the JSON grammar and
rejecting raw control characters. -/
def parseJStringAux : Nat → List Char → List Char → Option (String × List Char)
  | 0, _, _ => none
  | _ + 1, _, [] => none
  | fuel + 1, acc, c :: cs =>
    if c = '"' then some (String.mk acc.reverse, cs)
    else if c = '\\' then
      match cs with
      | [] => none
      | e :: cs2 =>
        if e = '"' then parseJStringAux fuel ('"' :: acc) cs2
        else if e = '\\' then parseJStringAux fuel ('\\' :: acc) cs2
        else if e = '/' then parseJStringAux fuel ('/' :: acc) cs2
        else if e = 'b' then parseJStringAux fuel ('\x08' :: acc) cs2
        else if e = 'f' then parseJStringAux fuel ('\x0c' :: acc) cs2
        else if e = 'n' then parseJStringAux fuel ('\n' :: acc) cs2
        else if e = 'r' then parseJStringAux fuel ('\r' :: acc) cs2
        else if e = 't' then parseJStringAux fuel ('\t' :: acc) cs2
        else if e = 'u' then
          match cs2 with
          | h1 :: h2 :: h3 :: h4 :: cs3 =>
            match hexVal h1, hexVal h2, hexVal h3, hexVal h4 with
            | some a, some b, some c2, some d =>
              parseJStringAux fuel (Char.ofNat (((a * 16 + b) * 16 + c2) * 16 + d) :: acc) cs3
            | _, _, _, _ => none
          | _ => none
        else none
    else if c.toNat < 32 then none
    else parseJStringAux fuel (c :: acc) cs

/-- Parse the optional fraction and exponent of a JSON number, given the
lexeme parsed so far. -/
def parseFracExp (lex : List Char) (cs : List Char) : Option (String × List Char) :=
  let step1 : Option (List Char × List Char) :=
    match cs with
    | '.' :: r =>
      match r with
      | d :: _ =>
        if d.isDigit then
          some (lex ++ '.' :: r.takeWhile Char.isDigit, r.dropWhile Char.isDigit)
        else none
      | [] => none
    | _ => some (lex, cs)
  match step1 with
  | none => none
  | some (lex2, cs2) =>
    match cs2 with
    | e :: r =>
      if e = 'e' ∨ e = 'E' then
        let sgnR : List Char × List Char :=
          match r with
          | '+' :: rr => (['+'], rr)
          | '-' :: rr => (['-'], rr)
          | _ => ([], r)
        match sgnR.2 with
        | d :: _ =>
          if d.isDigit then
            some (String.mk (lex2 ++ e :: sgnR.1 ++ sgnR.2.takeWhile Char.isDigit),
              sgnR.2.dropWhile Char.isDigit)
          else none
        | [] => none
      else some (String.mk lex2, cs2)
    | [] => some (String.mk lex2, cs2)

/-- Parse a JSON number (rejecting leading zeros, as `JSON.parse` does). -/
def parseJNumber (cs : List Char) : Option (String × List Char) :=
  let signR : List Char × List Char :=
    match cs with
    | '-' :: r => (['-'], r)
    | _ => ([], cs)
  match signR.2 with
  | [] => none
  | c :: rest =>
    if c = '0' then parseFracExp (signR.1 ++ ['0']) rest
    else if c.isDigit then
      parseFracExp (signR.1 ++ c :: rest.takeWhile Char.isDigit)
        (rest.dropWhile Char.isDigit)
    else none

mutual

/-- Parse one JSON value. -/
def parseJValue : Nat → List Char → Option (Json × List Char)
  | 0, _ => none
  | fuel + 1, cs =>
    match skipWs cs with
    | [] => none
    | c :: rest =>
      if c = '"' then
        match parseJStringAux (rest.length + 1) [] rest with
        | some (s, cs2) => some (Json.str s, cs2)
        | none => none
      else if c = '\x7b' then parseJObjStart fuel rest
      else if c = '[' then parseJArrStart fuel rest
      else if c = 't' then
        match rest with
        | 'r' :: 'u' :: 'e' :: cs2 => some (Json.bool true, cs2)
        | _ => none
      else if c = 'f' then
        match rest with
        | 'a' :: 'l' :: 's' :: 'e' :: cs2 => some (Json.bool false, cs2)
        | _ => none
      else if c = 'n' then
        match rest with
        | 'u' :: 'l' :: 'l' :: cs2 => some (Json.null, cs2)
        | _ => none
      else if c = '-' ∨ c.isDigit then
        match parseJNumber (c :: rest) with
        | some (lex, cs2) => some (Json.num lex, cs2)
        | none => none
      else none

/-- Parse the members of an object (the opening brace already consumed). -/
def parseJObjStart : Nat → List Char → Option (Json × List Char)
  | 0, _ => none
  | fuel + 1, cs =>
    match skipWs cs with
    | '\x7d' :: cs2 => some (Json.obj [], cs2)
    | _ => parseJObjMembers fuel cs []

/-- Parse `"key": value` pairs separated by commas, up to the closing
brace. -/
def parseJObjMembers : Nat → List Char → List (String × Json) →
    Option (Json × List Char)
  | 0, _, _ => none
  | fuel + 1, cs, acc =>
    match skipWs cs with
    | '"' :: rest =>
      match parseJStringAux (rest.length + 1) [] rest with
      | some (k, cs2) =>
        match skipWs cs2 with
        | ':' :: cs3 =>
          match parseJValue fuel cs3 with
          | some (v, cs4) =>
            match skipWs cs4 with
            | ',' :: cs5 => parseJObjMembers fuel cs5 (acc ++ [(k, v)])
            | '\x7d' :: cs5 => some (Json.obj (acc ++ [(k, v)]), cs5)
            | _ => none
          | none => none
        | _ => none
      | none => none
    | _ => none

/-- Parse the elements of an array (the opening bracket already
consumed). -/
def parseJArrStart : Nat → List Char → Option (Json × List Char)
  | 0, _ => none
  | fuel + 1, cs =>
    match skipWs cs with
    | ']' :: cs2 => some (Json.arr [], cs2)
    | _ => parseJArrElems fuel cs []

/-- Parse array elements separated by commas, up to the closing
bracket. -/
def parseJArrElems : Nat → List Char → List Json → Option (Json × List Char)
  | 0, _, _ => none
  | fuel + 1, cs, acc =>
    match parseJValue fuel cs with
    | some (v, cs2) =>
      match skipWs cs2 with
      | ',' :: cs3 => parseJArrElems fuel cs3 (acc ++ [v])
      | ']' :: cs3 => some (Json.arr (acc ++ [v]), cs3)
      | _ => none
    | none => none

end

/-- `JSON.parse`: parse one value and require only whitespace after it. -/
def jsonParse (s : String) : Option Json :=
  match parseJValue (3 * s.data.length + 3) s.data with
  | some (j, rest) =>
    match skipWs rest with
    | [] => some j
    | _ => none
  | none => none

/-! ## Stream decoder (src/lib/openai.ts, handleStreamResponse) -/

/-- Property lookup on a parsed JSON object; `JSON.parse` keeps the last
occurrence of a duplicated key. -/
def jsLookup (members : List (String × Json)) (key : String) : Option Json :=
  (members.reverse.find? fun m => m.1 == key).map fun m => m.2

/-- Continue the access chain `choices[0]?.delta?.content || ''` after
`choices[0]` has been evaluated (`none` models the JS value
`undefined`).  Optional chaining turns an absent, `null` or primitive
`delta`, and an absent, `null` or non-string `content`, into the empty
fragment; the provider protocol declares `content` as an optional
string. -/
def choice0Content (c : Option Json) : Option String :=
  match c with
  | some (Json.obj cm) =>
    match jsLookup cm "delta" with
    | some (Json.obj dm) =>
      match jsLookup dm "content" with
      | some (Json.str s) => some s
      | _ => some ""
    | _ => some ""
  | _ => some ""

/-- The delta extraction `parsed.choices[0]?.delta?.content || ''`
performed on a parsed frame.  `none` models a thrown `TypeError`
(indexing `undefined` or `null`), which the surrounding `catch` swallows
exactly like a parse failure. -/
def deltaContent (j : Json) : Option String :=
  match j with
  | Json.obj members =>
    match jsLookup members "choices" with
    | none => none
    | some Json.null => none
    | some (Json.arr choices) => choice0Content choices.head?
    | some (Json.obj cm) => choice0Content (jsLookup cm "0")
    | some (Json.str s) =>
      choice0Content ((s.data.head?).map fun ch => Json.str (String.mk [ch]))
    | some _ => choice0Content none
  | _ => none

/-- `JSON.parse` followed by the delta extraction; `none` is the
exception path of the `try` block. -/
def extractContent (payload : String) : Option String :=
  (jsonParse payload).bind deltaContent

/-- The decoder state: the running accumulator `fullContent` and the
arguments passed to the consumer callback `onStream`, in call order. -/
structure StreamState where
  fullContent : String
  callbacks : List String
deriving DecidableEq, Repr

/-- The body of the inner `for (const line of lines)` loop
(openai.ts lines 172-187): lines without the `data: ` prefix are
discarded, the `[DONE]` sentinel line is skipped with `continue`, a
payload whose parse or extraction throws is skipped, an empty fragment is
ignored, and a non-empty fragment is appended to the accumulator before
the callback receives the full accumulated text. -/
def processLine (st : StreamState) (line : String) : StreamState :=
  if jsStartsWith line "data: " then
    let data := jsSlice line 6
    if data == "[DONE]" then st
    else
      match extractContent data with
      | none => st
      | some content =>
        if content == "" then st
        else
          { fullContent := st.fullContent ++ content
            callbacks := st.callbacks ++ [st.fullContent ++ content] }
  else st

/-- `chunk.split('\n').filter(line => line.trim() !== '')`
(openai.ts line 170): every piece of the chunk is kept, including a
trailing line not terminated by a newline. -/
def chunkLines (chunk : String) : List String :=
  (jsSplitNewline chunk).filter fun line => jsTrim line != ""

/-- Process one decoded read (openai.ts lines 169-188). -/
def processChunk (st : StreamState) (chunk : String) : StreamState :=
  (chunkLines chunk).foldl processLine st

/-- `handleStreamResponse` (openai.ts lines 156-195) over the sequence of
chunks delivered by the reader, starting from the empty accumulator.  The
source returns `fullContent`; the model also keeps the callback record. -/
def handleStreamResponse (chunks : List String) : StreamState :=
  chunks.foldl processChunk { fullContent := "", callbacks := [] }

/-- Spec-side description: the content fragment contributed by a single
line, written after the words of the specification ("the content
fragments of every successfully parsed `data: ` frame").  To be compared
with the stateful decoder above. -/
def specLineFragment (line : String) : Option String :=
  if jsStartsWith line "data: " then
    if jsSlice line 6 == "[DONE]" then none
    else extractContent (jsSlice line 6)
  else none

/-- Spec-side description: the fragments of all successfully parsed
frames, in arrival order. -/
def specFragments (chunks : List String) : List String :=
  ((chunks.map chunkLines).flatten).filterMap specLineFragment

/-! ## Backup codec (src/lib/db.ts, exportAllData / importData)

`exportAllData` and `importData` never inspect individual rows, so the
store is polymorphic in the seven row types. -/

/-- The seven tables of the record store. -/
structure Store (υ σ π κ τ μ ς : Type) where
  users : List υ
  studentProfiles : List σ
  professionalProfiles : List π
  analyses : List κ
  chatThreads : List τ
  chatMessages : List μ
  settings : List ς
deriving DecidableEq, Repr

/-- The `data` object of a backup document.  A table key may be absent
from an imported document (`data.users || []`), hence `Option`. -/
structure BackupData (υ σ π κ τ μ ς : Type) where
  users : Option (List υ)
  studentProfiles : Option (List σ)
  professionalProfiles : Option (List π)
  analyses : Option (List κ)
  chatThreads : Option (List τ)
  chatMessages : Option (List μ)
  settings : Option (List ς)
deriving DecidableEq, Repr

/-- The exported envelope `\x7b version, exported, data \x7d`. -/
structure BackupDoc (υ σ π κ τ μ ς : Type) where
  version : Nat
  exported : String
  data : BackupData υ σ π κ τ μ ς
deriving DecidableEq, Repr

/-- `exportAllData` (db.ts lines 250-274): read every table and wrap the
arrays in the envelope with `version: 1` and the current timestamp. -/
def exportAllData (now : String) (st : Store υ σ π κ τ μ ς) :
    BackupDoc υ σ π κ τ μ ς :=
  { version := 1
    exported := now
    data :=
      { users := some st.users
        studentProfiles := some st.studentProfiles
        professionalProfiles := some st.professionalProfiles
        analyses := some st.analyses
        chatThreads := some st.chatThreads
        chatMessages := some st.chatMessages
        settings := some st.settings } }

/-- Names of the seven tables, used to force a bulk-insert failure in the
import-atomicity experiment. -/
inductive TableName where
  | users
  | studentProfiles
  | professionalProfiles
  | analyses
  | chatThreads
  | chatMessages
  | settings
deriving DecidableEq, Repr

/-- One `bulkAdd` call inside the import transaction, with failure
injection: if the call for this table is forced to fail, the promise
rejects (`none`); otherwise the rows land in the freshly cleared table. -/
def bulkAddOrFail (failsOn : TableName → Bool) (t : TableName)
    (rows : List ρ) : Option (List ρ) :=
  if failsOn t then none else some rows

/-- The body of the `db.transaction('rw', ...)` call in `importData`
(db.ts lines 278-301): clear every table, then bulk-add each table's
incoming rows (an absent table key inserts nothing).  Because every table
is cleared first, the contents on commit are exactly the added rows; a
rejected `bulkAdd` makes the whole body reject (`none`). -/
def importTxnBody (failsOn : TableName → Bool)
    (doc : BackupDoc υ σ π κ τ μ ς) : Option (Store υ σ π κ τ μ ς) :=
  (bulkAddOrFail failsOn TableName.users (doc.data.users.getD [])).bind fun us =>
  (bulkAddOrFail failsOn TableName.studentProfiles
      (doc.data.studentProfiles.getD [])).bind fun sps =>
  (bulkAddOrFail failsOn TableName.professionalProfiles
      (doc.data.professionalProfiles.getD [])).bind fun pps =>
  (bulkAddOrFail failsOn TableName.analyses (doc.data.analyses.getD [])).bind fun ans =>
  (bulkAddOrFail failsOn TableName.chatThreads
      (doc.data.chatThreads.getD [])).bind fun cts =>
  (bulkAddOrFail failsOn TableName.chatMessages
      (doc.data.chatMessages.getD [])).bind fun cms =>
  (bulkAddOrFail failsOn TableName.settings (doc.data.settings.getD [])).bind fun sts =>
  some
    { users := us
      studentProfiles := sps
      professionalProfiles := pps
      analyses := ans
      chatThreads := cts
      chatMessages := cms
      settings := sts }

/-- `importData` (db.ts lines 277-302): the body runs inside one
read-write transaction spanning all seven tables, so a rejection aborts
the transaction and every table keeps its pre-import contents. -/
def importData (failsOn : TableName → Bool) (doc : BackupDoc υ σ π κ τ μ ς)
    (st : Store υ σ π κ τ μ ς) : Store υ σ π κ τ μ ς :=
  match importTxnBody failsOn doc with
  | some st2 => st2
  | none => st

/-! ## Helper lemmas: analysis versioning -/

theorem jsOrBool_true (x : Option Bool) : jsOrBool x true = true := by
  rcases x with _ | b
  · rfl
  · cases b <;> rfl

theorem latestRowsFor_append (u : Nat) (t₁ t₂ : List CareerAnalysis) :
    latestRowsFor u (t₁ ++ t₂) = latestRowsFor u t₁ ++ latestRowsFor u t₂ := by
  simp [latestRowsFor, List.filter_append]

theorem latestRowsFor_flip_self (u : Nat) (t : List CareerAnalysis) :
    latestRowsFor u (flipLatest u t) = [] := by
  induction t with
  | nil => rfl
  | cons a t ih =>
    by_cases hau : a.userId = u
    · by_cases hal : a.latest = true
      · simp_all [flipLatest, latestRowsFor, setNotLatest]
      · simp_all [flipLatest, latestRowsFor]
    · simp_all [flipLatest, latestRowsFor]

theorem latestRowsFor_flip_other (u v : Nat) (huv : u ≠ v) (t : List CareerAnalysis) :
    latestRowsFor u (flipLatest v t) = latestRowsFor u t := by
  induction t with
  | nil => rfl
  | cons a t ih =>
    by_cases hav : a.userId = v
    · by_cases hal : a.latest = true
      · have hau : a.userId ≠ u := by rw [hav]; exact Ne.symm huv
        simp_all [flipLatest, latestRowsFor, setNotLatest]
      · simp_all [flipLatest, latestRowsFor]
    · have hhead : flipLatest v (a :: t) = a :: flipLatest v t := by
        simp [flipLatest, hav]
      have ih2 := ih
      unfold latestRowsFor at ih2 ⊢
      rw [hhead, List.filter_cons, List.filter_cons, ih2]

theorem latestRowsFor_record_self (u : Nat) (r : AnalysisResult)
    (t : List CareerAnalysis) :
    latestRowsFor u (recordAnalysis u r t) = [mkAnalysisRecord u r] := by
  rw [recordAnalysis, latestRowsFor_append, latestRowsFor_flip_self]
  simp [latestRowsFor, mkAnalysisRecord]

theorem latestRowsFor_record_other (u v : Nat) (huv : u ≠ v) (r : AnalysisResult)
    (t : List CareerAnalysis) :
    latestRowsFor u (recordAnalysis v r t) = latestRowsFor u t := by
  rw [recordAnalysis, latestRowsFor_append, latestRowsFor_flip_other u v huv]
  simp [latestRowsFor, mkAnalysisRecord, Ne.symm huv]

theorem runOpsFrom_cons (p : Nat × AnalysisResult) (ops : List (Nat × AnalysisResult))
    (t : List CareerAnalysis) :
    runOpsFrom t (p :: ops) = runOpsFrom (recordAnalysis p.1 p.2 t) ops := rfl

theorem runOpsFrom_latest_count (ops : List (Nat × AnalysisResult)) :
    ∀ (t : List CareerAnalysis) (u : Nat),
      (latestRowsFor u (runOpsFrom t ops)).length =
        if u ∈ ops.map Prod.fst then 1 else (latestRowsFor u t).length := by
  induction ops with
  | nil => intro t u; simp [runOpsFrom]
  | cons p ops ih =>
    intro t u
    rw [runOpsFrom_cons, ih]
    by_cases h : u = p.1
    · by_cases hmem : u ∈ ops.map Prod.fst <;>
        simp [hmem, h, latestRowsFor_record_self]
    · by_cases hmem : u ∈ ops.map Prod.fst <;>
        simp [hmem, h, latestRowsFor_record_other u p.1 h]

theorem runOpsFrom_invariant (P : CareerAnalysis → Prop)
    (hflip : ∀ a, P a → P (setNotLatest a))
    (hnew : ∀ u r, P (mkAnalysisRecord u r)) (ops : List (Nat × AnalysisResult)) :
    ∀ t : List CareerAnalysis, (∀ a ∈ t, P a) → ∀ a ∈ runOpsFrom t ops, P a := by
  induction ops with
  | nil => intro t ht a ha; exact ht a ha
  | cons p ops ih =>
    intro t ht a ha
    rw [runOpsFrom_cons] at ha
    refine ih (recordAnalysis p.1 p.2 t) ?_ a ha
    intro b hb
    rcases List.mem_append.mp hb with hb | hb
    · rcases List.mem_map.mp hb with ⟨c, hc, rfl⟩
      by_cases hcond : (c.userId == p.1 && c.latest) = true
      · simpa [hcond] using hflip c (ht c hc)
      · simpa [hcond] using ht c hc
    · rcases List.mem_singleton.mp hb with rfl
      exact hnew p.1 p.2

/-! ## Claim theorems: analysis versioning -/

/-- C1: for every userId and every sequence of record-analysis
operations, at most one Analysis row for that userId has `latest = true`
(and also at most one mid-operation, after the flip and before the add);
exactly one once at least one analysis has been recorded for that user;
and that row's version is a maximum among that user's rows. -/
theorem c1_latest_invariant (ops : List (Nat × AnalysisResult)) (u : Nat) :
    (latestRowsFor u (runOps ops)).length ≤ 1
    ∧ (u ∈ ops.map Prod.fst → (latestRowsFor u (runOps ops)).length = 1)
    ∧ (∀ a ∈ latestRowsFor u (runOps ops), ∀ b ∈ rowsFor u (runOps ops),
        b.version ≤ a.version)
    ∧ (∀ t : List CareerAnalysis, (latestRowsFor u (flipLatest u t)).length ≤ 1) := by
  have hcount := runOpsFrom_latest_count ops [] u
  have hver : ∀ a ∈ runOps ops, a.version = 1 :=
    runOpsFrom_invariant (fun a => a.version = 1) (fun a h => h)
      (fun _ _ => rfl) ops [] (by simp)
  refine ⟨?_, ?_, ?_, ?_⟩
  · rw [runOps, hcount]
    by_cases hmem : u ∈ ops.map Prod.fst <;> simp [hmem, latestRowsFor]
  · intro hmem
    rw [runOps, hcount]
    simp [hmem]
  · intro a ha b hb
    have ha2 : a ∈ runOps ops := List.mem_of_mem_filter ha
    have hb2 : b ∈ runOps ops := List.mem_of_mem_filter hb
    rw [hver a ha2, hver b hb2]
  · intro t
    rw [latestRowsFor_flip_self]
    simp

/-- Witness for C1 at a concrete operation sequence. -/
theorem c1_witness :
    (latestRowsFor 0 (runOps [(0, (⟨some true, some []⟩ : AnalysisResult))])).length = 1
    ∧ (mkAnalysisRecord 0 ⟨some true, some []⟩).version ≤
        (mkAnalysisRecord 0 ⟨some true, some []⟩).version :=
  ⟨(c1_latest_invariant [(0, ⟨some true, some []⟩)] 0).2.1 (by decide),
   (c1_latest_invariant [(0, ⟨some true, some []⟩)] 0).2.2.1
     (mkAnalysisRecord 0 ⟨some true, some []⟩) (by decide)
     (mkAnalysisRecord 0 ⟨some true, some []⟩) (by decide)⟩

/-- C2 counterexample: recording twice for user 0 from an empty table, the
second recorded row (the last row of the table) has version 1, not
(max existing version) + 1 = 2. -/
theorem c2_counterexample :
    (runOps [(0, (⟨some true, some []⟩ : AnalysisResult)),
        (0, ⟨some true, some []⟩)]).getLast?
      = some (mkAnalysisRecord 0 ⟨some true, some []⟩)
    ∧ (mkAnalysisRecord 0 ⟨some true, some []⟩).version = 1
    ∧ ((rowsFor 0 (runOps [(0, (⟨some true, some []⟩ : AnalysisResult))])).map
        (fun a => a.version)).max? = some 1
    ∧ (mkAnalysisRecord 0 ⟨some true, some []⟩).version ≠ 1 + 1 := by
  decide

/-- C2 amended: the first recorded analysis for a user has version 1, and
so does every subsequently recorded one — the record path writes the
literal `version: 1` and never computes max + 1. -/
theorem c2_all_versions_one (ops : List (Nat × AnalysisResult)) :
    ∀ a ∈ runOps ops, a.version = 1 :=
  runOpsFrom_invariant (fun a => a.version = 1) (fun a h => h)
    (fun _ _ => rfl) ops [] (by simp)

/-- Witness for the amended C2 at a concrete operation sequence. -/
theorem c2_witness :
    (mkAnalysisRecord 5 (⟨none, none⟩ : AnalysisResult)).version = 1 :=
  c2_all_versions_one [(5, ⟨none, none⟩)] (mkAnalysisRecord 5 ⟨none, none⟩)
    (by decide)

/-- C3 counterexample: starting from a table holding one latest row for
user 0, a failure of the add step after the flip has committed leaves the
store changed (the old row is flipped off) and with zero latest rows —
not "exactly as it was before the operation". -/
theorem c3_counterexample :
    recordAnalysisFallible false true 0 (⟨some true, some []⟩ : AnalysisResult)
        [{ userId := 0, clarifications := [], interestsConfirmed := true,
           latest := true, version := 1 }]
      ≠ [{ userId := 0, clarifications := [], interestsConfirmed := true,
           latest := true, version := 1 }]
    ∧ (latestRowsFor 0 (recordAnalysisFallible false true 0
        (⟨some true, some []⟩ : AnalysisResult)
        [{ userId := 0, clarifications := [], interestsConfirmed := true,
           latest := true, version := 1 }])).length = 0 := by
  decide

/-- C3 amended: the flip and the insert are two separate atomic
operations with no enclosing transaction.  If the flip fails nothing has
changed; if the insert fails after the flip has committed, the flip
persists and the user is left with zero latest rows until a later
successful record. -/
theorem c3_no_transaction (u : Nat) (r : AnalysisResult)
    (t : List CareerAnalysis) (b : Bool) :
    recordAnalysisFallible true b u r t = t
    ∧ recordAnalysisFallible false true u r t = flipLatest u t
    ∧ latestRowsFor u (flipLatest u t) = [] :=
  ⟨rfl, rfl, latestRowsFor_flip_self u t⟩

/-- C10: every Analysis row written by the record-analysis path has
`interestsConfirmed = true`, including for a result whose own
`interestsConfirmed` is `false` (`analysisResult.interestsConfirmed || true`
is always `true`). -/
theorem c10_interests_confirmed (ops : List (Nat × AnalysisResult)) :
    (∀ a ∈ runOps ops, a.interestsConfirmed = true)
    ∧ (mkAnalysisRecord 0 ⟨some false, some []⟩).interestsConfirmed = true := by
  refine ⟨?_, rfl⟩
  exact runOpsFrom_invariant (fun a => a.interestsConfirmed = true)
    (fun a h => h) (fun _ r => jsOrBool_true r.interestsConfirmed) ops [] (by simp)

/-- Witness for C10 at a concrete operation sequence with a `false`
confirmation in the result. -/
theorem c10_witness :
    (mkAnalysisRecord 7 (⟨some false, none⟩ : AnalysisResult)).interestsConfirmed
      = true :=
  (c10_interests_confirmed [(7, ⟨some false, none⟩)]).1
    (mkAnalysisRecord 7 ⟨some false, none⟩) (by decide)

/-! ## Helper lemmas: stream decoder -/

theorem string_foldl_append (l : List String) :
    ∀ x y : String, l.foldl (· ++ ·) (x ++ y) = x ++ l.foldl (· ++ ·) y := by
  induction l with
  | nil => intro x y; rfl
  | cons a l ih =>
    intro x y
    simp only [List.foldl_cons]
    rw [String.append_assoc]
    exact ih x (y ++ a)

theorem string_join_cons (a : String) (l : List String) :
    String.join (a :: l) = a ++ String.join l := by
  show (a :: l).foldl (· ++ ·) "" = a ++ l.foldl (· ++ ·) ""
  simp only [List.foldl_cons]
  rw [String.empty_append]
  calc l.foldl (· ++ ·) a = l.foldl (· ++ ·) (a ++ "") := by
        rw [String.append_empty]
    _ = a ++ l.foldl (· ++ ·) "" := string_foldl_append l a ""

theorem string_join_append (l₁ l₂ : List String) :
    String.join (l₁ ++ l₂) = String.join l₁ ++ String.join l₂ := by
  induction l₁ with
  | nil =>
    rw [List.nil_append]
    show String.join l₂ = String.join [] ++ String.join l₂
    rw [show String.join ([] : List String) = "" from rfl, String.empty_append]
  | cons a l ih =>
    rw [List.cons_append, string_join_cons, string_join_cons, ih,
      String.append_assoc]

theorem processLine_fullContent (st : StreamState) (line : String) :
    (processLine st line).fullContent
      = st.fullContent ++ (specLineFragment line).getD "" := by
  unfold processLine specLineFragment
  by_cases h1 : jsStartsWith line "data: " = true
  · simp only [h1, if_true]
    by_cases h2 : (jsSlice line 6 == "[DONE]") = true
    · simp [h2, String.append_empty]
    · simp only [h2, Bool.false_eq_true, if_false]
      rcases h3 : extractContent (jsSlice line 6) with _ | c
      · simp [String.append_empty]
      · by_cases h4 : (c == "") = true
        · have hc : c = "" := by simpa using h4
          simp [h4, hc, String.append_empty]
        · simp [h4]
  · simp [h1, String.append_empty]

theorem foldl_processLine_fullContent (lines : List String) :
    ∀ st : StreamState,
      (lines.foldl processLine st).fullContent
        = st.fullContent ++ String.join (lines.filterMap specLineFragment) := by
  induction lines with
  | nil =>
    intro st
    rw [List.foldl_nil, List.filterMap_nil,
      show String.join ([] : List String) = "" from rfl, String.append_empty]
  | cons l ls ih =>
    intro st
    rw [List.foldl_cons, List.filterMap_cons, ih, processLine_fullContent]
    rcases h : specLineFragment l with _ | c
    · simp [String.append_empty]
    · simp only [Option.getD_some]
      rw [string_join_cons, String.append_assoc]

theorem processChunk_fullContent (st : StreamState) (chunk : String) :
    (processChunk st chunk).fullContent
      = st.fullContent
        ++ String.join ((chunkLines chunk).filterMap specLineFragment) :=
  foldl_processLine_fullContent (chunkLines chunk) st

theorem foldl_processChunk_fullContent (chunks : List String) :
    ∀ st : StreamState,
      (chunks.foldl processChunk st).fullContent
        = st.fullContent
          ++ String.join
            (((chunks.map chunkLines).flatten).filterMap specLineFragment) := by
  induction chunks with
  | nil =>
    intro st
    rw [List.foldl_nil, List.map_nil, List.flatten_nil, List.filterMap_nil,
      show String.join ([] : List String) = "" from rfl, String.append_empty]
  | cons ch chs ih =>
    intro st
    rw [List.foldl_cons, List.map_cons, List.flatten_cons, List.filterMap_append,
      ih, processChunk_fullContent, string_join_append, String.append_assoc]

/-! ## Claim theorems: stream decoder -/

/-- C4: the decoder's final return value is exactly the concatenation, in
arrival order, of the content fragments of every successfully parsed
`data: ` frame, and a line whose payload is not valid JSON between two
valid frames does not stop decoding and contributes nothing: on the
spec's example stream the result is "Hello" with callbacks "Hel",
"Hello". -/
theorem c4_stream_reassembly :
    (∀ chunks : List String,
      (handleStreamResponse chunks).fullContent
        = String.join (specFragments chunks))
    ∧ handleStreamResponse
        ["data: \x7b\"choices\":[\x7b\"delta\":\x7b\"content\":\"Hel\"\x7d\x7d]\x7d\n",
         "data: \x7bnot valid json\x7d\n",
         "data: \x7b\"choices\":[\x7b\"delta\":\x7b\"content\":\"lo\"\x7d\x7d]\x7d\n",
         "data: [DONE]\n"]
        = { fullContent := "Hello", callbacks := ["Hel", "Hello"] }
    ∧ extractContent "\x7bnot valid json\x7d" = none := by
  refine ⟨?_, by decide, by decide⟩
  intro chunks
  rw [handleStreamResponse, foldl_processChunk_fullContent]
  rw [specFragments]
  exact String.empty_append _

/-- C7 counterexample: a frame arriving after the `data: [DONE]` sentinel
is still parsed, its content is appended to the accumulator and it is
delivered to the consumer callback — the decoder only `continue`s past
the sentinel line, it does not stop processing input. -/
theorem c7_counterexample :
    (handleStreamResponse
        ["data: [DONE]\n",
         "data: \x7b\"choices\":[\x7b\"delta\":\x7b\"content\":\"X\"\x7d\x7d]\x7d\n"]).fullContent
      = "X"
    ∧ (handleStreamResponse
        ["data: [DONE]\n",
         "data: \x7b\"choices\":[\x7b\"delta\":\x7b\"content\":\"X\"\x7d\x7d]\x7d\n"]).callbacks
      ≠ [] := by
  decide

/-- C7 amended: the sentinel line itself is skipped and contributes
nothing, but decoding continues — a stream beginning with the sentinel is
decoded exactly like the same stream without it, so frames after
`[DONE]` are still parsed, appended and delivered. -/
theorem c7_sentinel_only_skipped (chunks : List String) :
    handleStreamResponse ("data: [DONE]\n" :: chunks)
      = handleStreamResponse chunks := by
  have h : processChunk { fullContent := "", callbacks := [] } "data: [DONE]\n"
      = { fullContent := "", callbacks := [] } := by decide
  rw [handleStreamResponse, List.foldl_cons, h]
  rfl

/-- C8 counterexample: a `data: ` frame whose bytes are split across two
consecutive reads contributes nothing — the first read's trailing partial
line is processed immediately (its payload fails to parse and is
skipped) and the second read's remainder lacks the `data: ` prefix and is
discarded — whereas the same frame delivered in one read contributes its
fragment.  The split frame does not contribute "exactly once". -/
theorem c8_counterexample :
    handleStreamResponse
        ["data: \x7b\"choices\":[\x7b\"delta\":\x7b\"content\":\"Hi\"",
         "\x7d\x7d]\x7d\n"]
      = { fullContent := "", callbacks := [] }
    ∧ handleStreamResponse
        ["data: \x7b\"choices\":[\x7b\"delta\":\x7b\"content\":\"Hi\"\x7d\x7d]\x7d\n"]
      = { fullContent := "Hi", callbacks := ["Hi"] } := by
  decide

/-- C8 amended: the decoder keeps no buffer across reads.  A read's
trailing partial line appears among that read's processed lines, and a
frame split across two reads is lost (both pieces are skipped) while
an unsplit frame in the same stream still contributes its fragment. -/
theorem c8_per_read_processing :
    handleStreamResponse
        ["data: \x7b\"choices\":[\x7b\"delta\":\x7b\"content\":\"Hel\"\x7d\x7d]\x7d\ndata: \x7b\"cho",
         "ices\":[\x7b\"delta\":\x7b\"content\":\"lo\"\x7d\x7d]\x7d\n"]
      = { fullContent := "Hel", callbacks := ["Hel"] }
    ∧ chunkLines "data: x" = ["data: x"] := by
  decide

/-! ## Helper lemmas: backup codec -/

theorem importTxnBody_none {υ σ π κ τ μ ς : Type} (failsOn : TableName → Bool)
    (doc : BackupDoc υ σ π κ τ μ ς) (t : TableName) (h : failsOn t = true) :
    importTxnBody failsOn doc = none := by
  unfold importTxnBody bulkAddOrFail
  cases h1 : failsOn TableName.users with
  | true => simp [h1]
  | false =>
  cases h2 : failsOn TableName.studentProfiles with
  | true => simp [h1, h2]
  | false =>
  cases h3 : failsOn TableName.professionalProfiles with
  | true => simp [h1, h2, h3]
  | false =>
  cases h4 : failsOn TableName.analyses with
  | true => simp [h1, h2, h3, h4]
  | false =>
  cases h5 : failsOn TableName.chatThreads with
  | true => simp [h1, h2, h3, h4, h5]
  | false =>
  cases h6 : failsOn TableName.chatMessages with
  | true => simp [h1, h2, h3, h4, h5, h6]
  | false =>
  cases h7 : failsOn TableName.settings with
  | true => simp [h1, h2, h3, h4, h5, h6, h7]
  | false =>
    exfalso
    cases t <;> simp_all

/-! ## Claim theorems: backup codec -/

/-- C5: if the bulk-insert for any one table fails during import, the
whole transaction rolls back and every table keeps its pre-import
contents. -/
theorem c5_import_atomicity {υ σ π κ τ μ ς : Type} (failsOn : TableName → Bool)
    (doc : BackupDoc υ σ π κ τ μ ς) (st : Store υ σ π κ τ μ ς)
    (t : TableName) (h : failsOn t = true) :
    importData failsOn doc st = st := by
  unfold importData
  rw [importTxnBody_none failsOn doc t h]

/-- Witness for C5: forcing the `analyses` bulk-insert to fail leaves a
concrete store untouched. -/
theorem c5_witness :
    importData (fun t => t == TableName.analyses)
      (⟨1, "2026-10-11",
        ⟨some [1], some [2], some [3], some [4], some [5], some [6], some [7]⟩⟩ :
        BackupDoc Nat Nat Nat Nat Nat Nat Nat)
      ⟨[10], [20], [30], [40], [50], [60], [70]⟩
      = ⟨[10], [20], [30], [40], [50], [60], [70]⟩ :=
  c5_import_atomicity (fun t => t == TableName.analyses)
    ⟨1, "2026-10-11",
      ⟨some [1], some [2], some [3], some [4], some [5], some [6], some [7]⟩⟩
    ⟨[10], [20], [30], [40], [50], [60], [70]⟩ TableName.analyses (by decide)

/-- C6: importing the document produced by export restores every table
exactly (even as a list, hence in particular as a set ignoring row
order). -/
theorem c6_backup_roundtrip {υ σ π κ τ μ ς : Type} (now : String)
    (st : Store υ σ π κ τ μ ς) :
    importData (fun _ => false) (exportAllData now st) st = st := rfl

/-! ## Claim theorems: credential holder -/

/-- C9 counterexample: after saving a key in the persistent
(encrypted-local) mode with no session key present, `read` returns
`null`, not the saved key — decryption is unimplemented, so the
persistent slot is never read back. -/
theorem c9_counterexample :
    ¬ getApiKey (setApiKey
        ⟨none, none, some ⟨KeyStoredMode.noneMode⟩, "", false⟩ "sk-test" true)
      = some "sk-test"
    ∧ getApiKey (setApiKey
        ⟨none, none, some ⟨KeyStoredMode.noneMode⟩, "", false⟩ "sk-test" true)
      = none := by
  decide

/-- C9 amended: after `save(k, session)` with a non-empty `k`, `read`
returns `k`; after `save(k, persistent)` with no session key present,
`read` returns `null` (the persistent slot is write-only until
decryption is implemented).  `read` is a pure function of the state, so
the holder is never implicitly expired. -/
theorem c9_session_only (st : KeyState) (k : String) :
    (k ≠ "" → getApiKey (setApiKey st k false) = some k)
    ∧ (st.sessionStorageKey = none → getApiKey (setApiKey st k true) = none) := by
  constructor
  · intro hk
    simp [setApiKey, updateKeyStored, getApiKey, hk]
  · intro hs
    rcases hset : st.settings with _ | s <;>
      by_cases hk : k = "" <;>
        simp [setApiKey, updateKeyStored, getApiKey, getApiKeyLocalBranch,
          hs, hset, hk]

/-- Witness for the amended C9 at a concrete state and key. -/
theorem c9_witness :
    getApiKey (setApiKey
        ⟨none, none, some ⟨KeyStoredMode.noneMode⟩, "", false⟩ "sk-live" false)
      = some "sk-live"
    ∧ getApiKey (setApiKey
        ⟨none, none, some ⟨KeyStoredMode.noneMode⟩, "", false⟩ "sk-live" true)
      = none :=
  ⟨(c9_session_only ⟨none, none, some ⟨KeyStoredMode.noneMode⟩, "", false⟩
      "sk-live").1 (by decide),
   (c9_session_only ⟨none, none, some ⟨KeyStoredMode.noneMode⟩, "", false⟩
      "sk-live").2 (by decide)⟩

end SkillLead
